import Mathlib

/-!
Verification development for the ICLR OpenReview crawler (`crawl.py`).

The embedding models Python values occurring in note content mappings with
the inductive type `Val` (strings, `None`, and dictionaries represented as
association lists in insertion order).  The crawler's functions
(`extract_content`, `is_accepted_paper`, the note-classification chain, the
invitation-pattern resolution and the per-paper crawl loop) are translated
directly from the source; remote fetches are passed in as explicit oracles
`String → Except String (List Note)`, with `Except.error` standing for a
raised exception.
-/

namespace CrawlOpenReview

/-- A Python value as it appears in a note's content mapping: a string,
`None`, or a dictionary (association list in insertion order). -/
inductive Val where
  | str : String → Val
  | null : Val
  | dict : List (String × Val) → Val
deriving Repr

/-- Python truthiness (`if not decision:`): empty string, `None` and the
empty dict are falsy. -/
def Val.truthy : Val → Bool
  | .str s => s != ""
  | .null => false
  | .dict d => !d.isEmpty

mutual

/-- Python `repr` of a value, as used for values nested inside a dict. -/
def Val.pyRepr : Val → String
  | .str s => "\x27" ++ s ++ "\x27"
  | .null => "None"
  | .dict d => "\x7b" ++ Val.dictEntries d ++ "\x7d"

/-- The comma-separated entry list of a Python dict's `repr`. -/
def Val.dictEntries : List (String × Val) → String
  | [] => ""
  | [(k, v)] => "\x27" ++ k ++ "\x27: " ++ Val.pyRepr v
  | (k, v) :: e :: rest =>
      "\x27" ++ k ++ "\x27: " ++ Val.pyRepr v ++ ", " ++ Val.dictEntries (e :: rest)

end

/-- Python `str(...)` of a value (top-level strings are not quoted). -/
def Val.pyStr : Val → String
  | .str s => s
  | .null => "None"
  | .dict d => "\x7b" ++ Val.dictEntries d ++ "\x7d"

/-- Python dict lookup (`d.get(k)` / `k in d`) on an association list:
the first binding of the key wins. -/
def lookupKey (k : String) : List (String × Val) → Option Val
  | [] => Option.none
  | (k2, v) :: rest => if k2 = k then some v else lookupKey k rest

/-- Python `k in d` on an association list. -/
def hasKey (k : String) (c : List (String × Val)) : Bool :=
  (lookupKey k c).isSome

/-- Python `d.get(k, default)`. -/
def getVal (c : List (String × Val)) (k : String) (d : Val) : Val :=
  (lookupKey k c).getD d

/-- A value is an envelope iff it is a dict containing the key `value`
(`isinstance(val, dict) and 'value' in val`). -/
def isEnvelope : Val → Bool
  | .dict d => hasKey "value" d
  | _ => false

/-- Unwrapping of a single content value: an envelope dict is replaced by
its inner `value`, anything else is kept as-is. -/
def unwrapVal : Val → Val
  | .dict d => (lookupKey "value" d).getD (.dict d)
  | v => v

/-- `extract_content` from `crawl.py` (lines 178-185): rebuild the content
mapping, substituting each envelope value by its inner `value` and keeping
every other value unchanged, in iteration order. -/
def extract_content : List (String × Val) → List (String × Val)
  | [] => []
  | (k, v) :: rest => (k, unwrapVal v) :: extract_content rest

/-- `get_value` from `crawl.py` (lines 134-138): fetch a key with default
`''`; a dict value yields its inner `value` (default `''`). -/
def get_value (content : List (String × Val)) (k : String) : Val :=
  match lookupKey k content with
  | some (Val.dict d) => (lookupKey "value" d).getD (Val.str "")
  | some v => v
  | Option.none => Val.str ""

/-- Python `str.lower()` restricted to the ASCII mapping (the keywords
and decision strings concerned are ASCII), character by character. -/
def strLower (s : String) : String :=
  String.mk (s.toList.map Char.toLower)

/-- Python `sub in s` for strings: `sub` occurs as a contiguous substring
of `s`, via character lists. -/
def strContains (s sub : String) : Bool :=
  (List.range (s.toList.length + 1)).any
    (fun i => sub.toList.isPrefixOf (s.toList.drop i))

/-- The acceptance-indicator keywords of `is_accepted_paper`. -/
def accepted_keywords : List String :=
  ["accept", "oral", "poster", "spotlight", "notable", "top", "best"]

/-- The rejection-indicator keywords of `is_accepted_paper`. -/
def rejected_keywords : List String :=
  ["reject", "desk reject", "withdraw"]

/-- `is_accepted_paper` from `crawl.py` (lines 40-75): falsy input yields
`false`; otherwise lower-case the string form of the decision, return
`false` if any rejection keyword occurs as a substring, else `true` iff
some acceptance keyword occurs. -/
def is_accepted_paper (decision : Option Val) : Bool :=
  match decision with
  | Option.none => false
  | some v =>
    if !v.truthy then false
    else
      let decision_lower := strLower v.pyStr
      if rejected_keywords.any (fun w => strContains decision_lower w) then false
      else accepted_keywords.any (fun w => strContains decision_lower w)

/-- An OpenReview note (also used for submissions): identifier, optional
forum identifier, optional invitation tag and raw content mapping.
`Option` on `forum` / `invitation` models the `hasattr` guards in the
source. -/
structure Note where
  id : String
  forum : Option String := Option.none
  invitation : Option String := Option.none
  content : List (String × Val) := []

/-- `paper.forum if hasattr(paper, 'forum') else paper.id`. -/
def forumId (paper : Note) : String :=
  paper.forum.getD paper.id

/-- A review record as assembled in the classification loop
(`crawl.py` lines 192-206). -/
structure ReviewData where
  review_id : String
  invitation : String
  rating : Val
  confidence : Val
  summary : Val
  soundness : Val
  presentation : Val
  contribution : Val
  strengths : Val
  weaknesses : Val
  questions : Val
  limitations : Val
  review_text : Val

/-- A meta-review record (`crawl.py` lines 212-216). -/
structure MetaReviewData where
  id : String
  decision : Val
  content : List (String × Val)

/-- A comment record (`crawl.py` lines 220-225). -/
structure CommentData where
  note_id : String
  invitation : String
  comment : Val
  content : List (String × Val)

/-- The semantic category the note-classification chain assigns. -/
inductive NoteCategory where
  | review
  | metaReview
  | comment
  | unclassified
deriving DecidableEq, Repr

/-- The content-based classification chain of `crawl.py`
(lines 191, 210, 219), with the exact rule order of the source. -/
def classify (c : List (String × Val)) : NoteCategory :=
  if ["rating", "confidence", "review", "recommendation"].any (fun k => hasKey k c) then
    NoteCategory.review
  else if (["decision", "recommendation"].any (fun k => hasKey k c)) && !(hasKey "rating" c) then
    NoteCategory.metaReview
  else if ["comment", "rebuttal"].any (fun k => hasKey k c) then
    NoteCategory.comment
  else
    NoteCategory.unclassified

/-- The review record built from a note in the Review branch
(`crawl.py` lines 192-206). -/
def mkReview (note : Note) : ReviewData :=
  let c := extract_content note.content
  { review_id := note.id
    invitation := note.invitation.getD ""
    rating := getVal c "rating" (getVal c "recommendation" (Val.str ""))
    confidence := getVal c "confidence" (Val.str "")
    summary := getVal c "summary" (Val.str "")
    soundness := getVal c "soundness" (Val.str "")
    presentation := getVal c "presentation" (Val.str "")
    contribution := getVal c "contribution" (Val.str "")
    strengths := getVal c "strengths" (Val.str "")
    weaknesses := getVal c "weaknesses" (Val.str "")
    questions := getVal c "questions" (Val.str "")
    limitations := getVal c "limitations" (Val.str "")
    review_text := getVal c "review" (Val.str "") }

/-- The meta-review record built from a note in the MetaReview branch
(`crawl.py` lines 211-216); its `decision` is also what the loop assigns
to the running `decision` variable. -/
def mkMeta (note : Note) : MetaReviewData :=
  let c := extract_content note.content
  { id := note.id
    decision := getVal c "decision" (getVal c "recommendation" (Val.str ""))
    content := c }

/-- The comment record built from a note in the Comment branch
(`crawl.py` lines 220-225). -/
def mkComment (note : Note) : CommentData :=
  let c := extract_content note.content
  { note_id := note.id
    invitation := note.invitation.getD ""
    comment := getVal c "comment" (getVal c "rebuttal" (Val.str ""))
    content := c }

/-- The mutable accumulators of the per-forum classification loop
(`crawl.py` lines 160-163). -/
structure ForumState where
  reviews : List ReviewData
  comments : List CommentData
  meta_reviews : List MetaReviewData
  decision : Option Val

/-- The accumulators' initial values (`crawl.py` lines 160-163). -/
def initForumState : ForumState :=
  { reviews := [], comments := [], meta_reviews := [], decision := Option.none }

/-- One iteration of the per-note loop (`crawl.py` lines 165-225): skip
the submission itself, normalize the content, then dispatch on the
classification chain. -/
def processNote (pid : String) (st : ForumState) (note : Note) : ForumState :=
  if note.id = pid then st
  else
    match classify (extract_content note.content) with
    | NoteCategory.review =>
        { st with reviews := st.reviews ++ [mkReview note] }
    | NoteCategory.metaReview =>
        let m := mkMeta note
        { st with decision := some m.decision,
                  meta_reviews := st.meta_reviews ++ [m] }
    | NoteCategory.comment =>
        { st with comments := st.comments ++ [mkComment note] }
    | NoteCategory.unclassified => st

/-- The whole per-forum loop: fold `processNote` over the fetched notes in
source order. -/
def processNotes (pid : String) (st : ForumState) : List Note → ForumState
  | [] => st
  | note :: rest => processNotes pid (processNote pid st note) rest

/-- Title extraction (`crawl.py` lines 127-129, 143): fetch `title` with
default `{}`; a dict yields its inner `value` with default `'No title'`;
the result is passed through `str(...)`. -/
def getTitle (content : List (String × Val)) : String :=
  match (lookupKey "title" content).getD (Val.dict []) with
  | Val.dict d => ((lookupKey "value" d).getD (Val.str "No title")).pyStr
  | v => v.pyStr

/-- The per-paper output record (`paper_data` in `crawl.py`,
lines 140-149 and 227-241). -/
structure PaperData where
  paper_id : String
  forum_id : String
  title : String
  abstract : Val
  authors : Val
  keywords : Val
  pdf_url : String
  forum_url : String
  reviews : List ReviewData
  num_reviews : Nat
  meta_reviews : List MetaReviewData
  decision : Option Val
  comments : List CommentData

/-- One iteration of the per-paper loop (`crawl.py` lines 126-241), with
the forum-notes fetch supplied as an oracle; `Except.error` models a
raised exception, which the source catches locally and answers with empty
sub-collections (lines 235-241). -/
def processPaper (fetchForum : String → Except String (List Note))
    (paper : Note) : PaperData :=
  let fid := forumId paper
  let base : PaperData :=
    { paper_id := paper.id
      forum_id := fid
      title := getTitle paper.content
      abstract := get_value paper.content "abstract"
      authors := get_value paper.content "authors"
      keywords := get_value paper.content "keywords"
      pdf_url := "https://openreview.net/pdf?id=" ++ fid
      forum_url := "https://openreview.net/forum?id=" ++ fid
      reviews := []
      num_reviews := 0
      meta_reviews := []
      decision := Option.none
      comments := [] }
  match fetchForum fid with
  | Except.ok notes =>
      let st := processNotes paper.id initForumState notes
      { base with
          reviews := st.reviews
          num_reviews := st.reviews.length
          meta_reviews := st.meta_reviews
          decision := st.decision
          comments := st.comments }
  | Except.error _ => base

/-- The per-paper loop over all submissions with the optional
accepted-only filter (`crawl.py` lines 124-251): each record is appended
in submission order, or dropped when the filter is on and the decision is
not accepted. -/
def crawl_loop (fetchForum : String → Except String (List Note))
    (accepted_only : Bool) : List Note → List PaperData
  | [] => []
  | paper :: rest =>
      let paper_data := processPaper fetchForum paper
      if accepted_only then
        if is_accepted_paper paper_data.decision then
          paper_data :: crawl_loop fetchForum accepted_only rest
        else
          crawl_loop fetchForum accepted_only rest
      else
        paper_data :: crawl_loop fetchForum accepted_only rest

/-- Invitation-pattern resolution (`crawl.py` lines 94-112): try each
candidate in order; a raised fetch (`Except.error`) or an empty result
moves on to the next candidate; the first non-empty result is returned
together with the pattern used; exhaustion yields no submissions and no
pattern. -/
def resolve_patterns (fetchInv : String → Except String (List Note)) :
    List String → List Note × Option String
  | [] => ([], Option.none)
  | p :: rest =>
      match fetchInv p with
      | Except.error _ => resolve_patterns fetchInv rest
      | Except.ok subs =>
          if subs.length > 0 then (subs, some p)
          else resolve_patterns fetchInv rest

/-- The fixed candidate invitation patterns (`crawl.py` lines 89-92). -/
def iclrPatterns (year : Int) : List String :=
  ["ICLR.cc/" ++ toString year ++ "/Conference/-/Submission",
   "ICLR.cc/" ++ toString year ++ "/Conference/-/Blind_Submission"]

/-- `crawl_iclr_papers_and_reviews` from `crawl.py` (lines 78-261), with
the two generation-specific fetches supplied as oracles: resolve the
invitation pattern, return `[]` when no candidate yields submissions
(lines 114-120), else run the per-paper loop. -/
def crawl_iclr_papers_and_reviews
    (fetchInv fetchForum : String → Except String (List Note))
    (year : Int) (accepted_only : Bool) : List PaperData :=
  let res := resolve_patterns fetchInv (iclrPatterns year)
  if res.1.length = 0 then []
  else crawl_loop fetchForum accepted_only res.1

/-- `get_openreview_client` from `crawl.py` (lines 13-37): the outcomes of
the two constructor attempts are supplied explicitly; v2 is preferred, any
v2 failure falls back to v1, and when both fail the v1 failure is the one
that propagates. -/
def get_openreview_client {Client ε : Type}
    (v2res v1res : Except ε Client) : Except ε (Client × String) :=
  match v2res with
  | Except.ok c => Except.ok (c, "v2")
  | Except.error _ =>
      match v1res with
      | Except.ok c => Except.ok (c, "v1")
      | Except.error e => Except.error e

/-- Note classified MetaReview and distinct from its submission: the
notes that contribute entries to `meta_reviews`. -/
def isMetaNote (pid : String) (n : Note) : Bool :=
  (!(n.id == pid)) && decide (classify (extract_content n.content) = NoteCategory.metaReview)

/-- An invitation fetch outcome that is exhausted: raised or empty. -/
def failsOrEmpty : Except String (List Note) → Bool
  | Except.error _ => true
  | Except.ok l => l.isEmpty

/-- Sample submission A for concrete checks. -/
def wSubA : Note :=
  { id := "A", forum := some "A",
    content := [("title", Val.dict [("value", Val.str "Paper A")])] }

/-- Sample submission B for concrete checks. -/
def wSubB : Note :=
  { id := "B", forum := some "B",
    content := [("title", Val.dict [("value", Val.str "Paper B")])] }

/-- Sample meta-review note carrying an accepting decision. -/
def wMetaA : Note :=
  { id := "mA", content := [("decision", Val.str "Accept (Poster)")] }

/-- Sample meta-review note carrying a rejecting decision. -/
def wMetaB : Note :=
  { id := "mB", content := [("decision", Val.str "Reject")] }

/-- Sample review note whose only rating-like key is `recommendation`. -/
def wReviewNote : Note :=
  { id := "r1", content := [("recommendation", Val.str "7: accept")] }

/-- Sample review note carrying both `rating` and `decision`. -/
def wRatingNote : Note :=
  { id := "n1", content := [("rating", Val.str "8"), ("decision", Val.str "Accept")] }

/-- Oracle whose every fetch raises. -/
def wFetchErr : String → Except String (List Note) :=
  fun _ => Except.error "down"

/-- Oracle whose first candidate raises and whose second returns three
submissions. -/
def wFetchInvSkip : String → Except String (List Note) :=
  fun p => if p = "b" then Except.ok [wSubA, wSubB, wMetaA] else Except.error "e"

/-- Oracle returning the two-submission collection for the first ICLR
2024 candidate pattern. -/
def wFetchInvAB : String → Except String (List Note) :=
  fun p =>
    if p = "ICLR.cc/2024/Conference/-/Submission" then Except.ok [wSubA, wSubB]
    else Except.error "boom"

/-- Forum oracle for the two-submission scenario: forum A holds an
accepting meta-review, forum B a rejecting one. -/
def wFetchForumAB : String → Except String (List Note) :=
  fun fid =>
    if fid = "A" then Except.ok [wSubA, wMetaA]
    else if fid = "B" then Except.ok [wSubB, wMetaB]
    else Except.error "x"

/-- C2: rejection keywords are authoritative: any rejection-keyword
substring forces `false` even when an acceptance keyword also occurs;
otherwise the result is exactly the acceptance-keyword check; and the
concrete inputs "Accept (Poster)", "Reject", "" and an absent decision
yield `true`, `false`, `false`, `false`. -/
theorem is_accepted_keyword_semantics (s : String) :
    (rejected_keywords.any (fun w => strContains (strLower s) w) = true →
      is_accepted_paper (some (Val.str s)) = false) ∧
    (rejected_keywords.any (fun w => strContains (strLower s) w) = false →
      is_accepted_paper (some (Val.str s)) =
        accepted_keywords.any (fun w => strContains (strLower s) w)) ∧
    is_accepted_paper (some (Val.str "Accept (Poster)")) = true ∧
    is_accepted_paper (some (Val.str "Reject")) = false ∧
    is_accepted_paper (some (Val.str "")) = false ∧
    is_accepted_paper Option.none = false := by
  refine ⟨?_, ?_, by decide, by decide, by decide, rfl⟩
  · intro h
    by_cases hs : s = ""
    · subst hs; decide
    · have ht : (Val.str s).truthy = true := by simp [Val.truthy, hs]
      simp [is_accepted_paper, ht, Val.pyStr, h]
  · intro h
    by_cases hs : s = ""
    · subst hs; decide
    · have ht : (Val.str s).truthy = true := by simp [Val.truthy, hs]
      simp [is_accepted_paper, ht, Val.pyStr, h]

/-- Witness for C2 at concrete inputs: a string carrying both an
acceptance and a rejection keyword is rejected, and a keyword-free string
falls through to the acceptance check. -/
theorem is_accepted_keyword_semantics_witness :
    is_accepted_paper (some (Val.str "Accept then Withdrawn")) = false ∧
    is_accepted_paper (some (Val.str "Great paper")) =
      accepted_keywords.any (fun w => strContains (strLower "Great paper") w) :=
  ⟨(is_accepted_keyword_semantics "Accept then Withdrawn").1 (by decide),
   (is_accepted_keyword_semantics "Great paper").2.1 (by decide)⟩

/-- C6: normalization substitutes each envelope value by its inner
`value` and keeps every other value, key by key; consequently it is the
identity on a flat content mapping. -/
theorem extract_content_envelope_flat (content : List (String × Val)) :
    extract_content content = content.map (fun kv => (kv.1, unwrapVal kv.2)) ∧
    ((∀ kv ∈ content, isEnvelope kv.2 = false) → extract_content content = content) := by
  constructor
  · induction content with
    | nil => rfl
    | cons kv rest ih =>
      obtain ⟨k, v⟩ := kv
      simp [extract_content, ih]
  · intro h
    induction content with
    | nil => rfl
    | cons kv rest ih =>
      obtain ⟨k, v⟩ := kv
      have h1 : isEnvelope v = false := h (k, v) (by simp)
      have h2 : extract_content rest = rest :=
        ih (fun kv2 hm => h kv2 (List.mem_cons_of_mem _ hm))
      have hv : unwrapVal v = v := by
        cases v with
        | str s => rfl
        | null => rfl
        | dict d =>
          cases hl : lookupKey "value" d with
          | none => simp [unwrapVal, hl]
          | some inner => simp [isEnvelope, hasKey, hl] at h1
      simp [extract_content, hv, h2]

/-- Witness for C6: a flat two-key content mapping is returned
unchanged. -/
theorem extract_content_envelope_flat_witness :
    extract_content [("rating", Val.str "8"), ("comment", Val.str "c")] =
      [("rating", Val.str "8"), ("comment", Val.str "c")] :=
  (extract_content_envelope_flat [("rating", Val.str "8"), ("comment", Val.str "c")]).2
    (by decide)

/-- C7: client negotiation prefers v2 and tags it `'v2'`; a v2 failure
falls back to v1 tagged `'v1'`; when both attempts fail, exactly the
remaining failure propagates. -/
theorem client_negotiation_fallback (ε Client : Type)
    (v2res v1res : Except ε Client) :
    (∀ c, v2res = Except.ok c →
      get_openreview_client v2res v1res = Except.ok (c, "v2")) ∧
    (∀ e c, v2res = Except.error e → v1res = Except.ok c →
      get_openreview_client v2res v1res = Except.ok (c, "v1")) ∧
    (∀ e e2, v2res = Except.error e → v1res = Except.error e2 →
      get_openreview_client v2res v1res = Except.error e2) := by
  refine ⟨?_, ?_, ?_⟩ <;> intros <;> subst_vars <;> rfl

/-- Witness for C7: with v2 failing and v1 succeeding, the v1 session is
returned tagged `'v1'`. -/
theorem client_negotiation_fallback_witness :
    get_openreview_client (Except.error "v2 down" : Except String Nat)
      (Except.ok 7) = Except.ok (7, "v1") :=
  (client_negotiation_fallback String Nat (Except.error "v2 down")
    (Except.ok 7)).2.1 "v2 down" 7 rfl rfl

/-- C9: a note whose identifier equals the paper's identifier is skipped
entirely: it leaves the loop state unchanged, hence contributes to none
of the output sequences and never sets the decision. -/
theorem submission_note_excluded (pid : String) (st : ForumState) (note : Note)
    (h : note.id = pid) :
    processNote pid st note = st ∧
    ∀ rest, processNotes pid st (note :: rest) = processNotes pid st rest := by
  have h1 : processNote pid st note = st := by simp [processNote, h]
  exact ⟨h1, fun rest => by simp [processNotes, h1]⟩

/-- Witness for C9: a self-note carrying a `rating` key still leaves the
initial state untouched. -/
theorem submission_note_excluded_witness :
    processNote "A" initForumState { id := "A", content := [("rating", Val.str "8")] } =
      initForumState :=
  (submission_note_excluded "A" initForumState
    { id := "A", content := [("rating", Val.str "8")] } rfl).1

/-- C1: a note (other than the submission itself) whose normalized
content contains the key `rating` is appended to `reviews` and leaves
`meta_reviews` and `comments` untouched, whatever other keys are
present — rule 1 of the classification chain fires first. -/
theorem rating_note_classified_review (pid : String) (st : ForumState) (note : Note)
    (hid : note.id ≠ pid)
    (hr : hasKey "rating" (extract_content note.content) = true) :
    (processNote pid st note).reviews = st.reviews ++ [mkReview note] ∧
    (processNote pid st note).meta_reviews = st.meta_reviews ∧
    (processNote pid st note).comments = st.comments := by
  have hc : classify (extract_content note.content) = NoteCategory.review := by
    simp [classify, hr]
  simp [processNote, hid, hc]

/-- Witness for C1: a note carrying both `rating` and `decision` keys is
appended to the reviews sequence only. -/
theorem rating_note_classified_review_witness :
    (processNote "p" initForumState wRatingNote).reviews =
      initForumState.reviews ++ [mkReview wRatingNote] ∧
    (processNote "p" initForumState wRatingNote).meta_reviews =
      initForumState.meta_reviews ∧
    (processNote "p" initForumState wRatingNote).comments =
      initForumState.comments :=
  rating_note_classified_review "p" initForumState wRatingNote
    (by decide) (by decide)

/-- C10: in the Review record, a missing `rating` key falls back to the
`recommendation` value verbatim, to the empty string when both are
missing, and every other text field missing from the normalized content
defaults to the empty string. -/
theorem review_field_defaults (note : Note) (v : Val)
    (_hc : classify (extract_content note.content) = NoteCategory.review) :
    (lookupKey "rating" (extract_content note.content) = Option.none →
      lookupKey "recommendation" (extract_content note.content) = some v →
      (mkReview note).rating = v) ∧
    (lookupKey "rating" (extract_content note.content) = Option.none →
      lookupKey "recommendation" (extract_content note.content) = Option.none →
      (mkReview note).rating = Val.str "") ∧
    (lookupKey "confidence" (extract_content note.content) = Option.none →
      (mkReview note).confidence = Val.str "") ∧
    (lookupKey "summary" (extract_content note.content) = Option.none →
      (mkReview note).summary = Val.str "") ∧
    (lookupKey "soundness" (extract_content note.content) = Option.none →
      (mkReview note).soundness = Val.str "") ∧
    (lookupKey "presentation" (extract_content note.content) = Option.none →
      (mkReview note).presentation = Val.str "") ∧
    (lookupKey "contribution" (extract_content note.content) = Option.none →
      (mkReview note).contribution = Val.str "") ∧
    (lookupKey "strengths" (extract_content note.content) = Option.none →
      (mkReview note).strengths = Val.str "") ∧
    (lookupKey "weaknesses" (extract_content note.content) = Option.none →
      (mkReview note).weaknesses = Val.str "") ∧
    (lookupKey "questions" (extract_content note.content) = Option.none →
      (mkReview note).questions = Val.str "") ∧
    (lookupKey "limitations" (extract_content note.content) = Option.none →
      (mkReview note).limitations = Val.str "") ∧
    (lookupKey "review" (extract_content note.content) = Option.none →
      (mkReview note).review_text = Val.str "") := by
  refine ⟨?_, ?_, ?_, ?_, ?_, ?_, ?_, ?_, ?_, ?_, ?_, ?_⟩ <;>
    intro h1 <;> try intro h2
  all_goals simp [mkReview, getVal, h1]
  all_goals simp [h2]

/-- Witness for C10: a review note whose only rating-like key is
`recommendation` gets that value as its rating, and its absent `summary`
defaults to the empty string. -/
theorem review_field_defaults_witness :
    (mkReview wReviewNote).rating = Val.str "7: accept" ∧
    (mkReview wReviewNote).summary = Val.str "" :=
  ⟨(review_field_defaults wReviewNote (Val.str "7: accept") rfl).1 rfl rfl,
   (review_field_defaults wReviewNote (Val.str "7: accept") rfl).2.2.2.1 rfl⟩

/-- C4: when the forum-notes fetch raises, the paper's record is still
emitted with empty reviews, zero review count, empty meta-reviews, no
decision and empty comments, and the loop moves on to the next
submission. -/
theorem forum_fetch_failure_isolated
    (fetchForum : String → Except String (List Note)) (paper : Note) (e : String)
    (h : fetchForum (forumId paper) = Except.error e) :
    (processPaper fetchForum paper).reviews = [] ∧
    (processPaper fetchForum paper).num_reviews = 0 ∧
    (processPaper fetchForum paper).meta_reviews = [] ∧
    (processPaper fetchForum paper).decision = Option.none ∧
    (processPaper fetchForum paper).comments = [] ∧
    ∀ rest, crawl_loop fetchForum false (paper :: rest) =
      processPaper fetchForum paper :: crawl_loop fetchForum false rest := by
  refine ⟨?_, ?_, ?_, ?_, ?_, fun rest => rfl⟩ <;> simp [processPaper, h]

/-- Witness for C4: with an always-raising forum oracle, submission A's
record carries no decision and an empty reviews sequence. -/
theorem forum_fetch_failure_isolated_witness :
    (processPaper wFetchErr wSubA).reviews = [] ∧
    (processPaper wFetchErr wSubA).decision = Option.none :=
  ⟨(forum_fetch_failure_isolated wFetchErr wSubA "down" rfl).1,
   (forum_fetch_failure_isolated wFetchErr wSubA "down" rfl).2.2.2.1⟩

/-- Auxiliary: folding the per-note loop extends the meta-review
accumulator by one entry per MetaReview-classified non-self note, in
source order. -/
theorem processNotes_meta_append (pid : String) (notes : List Note) :
    ∀ st : ForumState,
      (processNotes pid st notes).meta_reviews =
        st.meta_reviews ++ (notes.filter (isMetaNote pid)).map mkMeta := by
  induction notes with
  | nil => intro st; simp [processNotes]
  | cons note rest ih =>
    intro st
    simp only [processNotes]
    rw [ih]
    by_cases hid : note.id = pid
    · simp [processNote, hid, isMetaNote, List.filter_cons]
    · cases hcl : classify (extract_content note.content) with
      | review => simp [processNote, hid, hcl, isMetaNote, List.filter_cons]
      | metaReview => simp [processNote, hid, hcl, isMetaNote, List.filter_cons]
      | comment => simp [processNote, hid, hcl, isMetaNote, List.filter_cons]
      | unclassified => simp [processNote, hid, hcl, isMetaNote, List.filter_cons]

/-- Auxiliary: the per-note loop preserves the invariant that the running
decision is the decision of the last accumulated meta-review record. -/
theorem processNotes_decision_last (pid : String) (notes : List Note) :
    ∀ st : ForumState,
      st.decision = st.meta_reviews.getLast?.map MetaReviewData.decision →
      (processNotes pid st notes).decision =
        (processNotes pid st notes).meta_reviews.getLast?.map MetaReviewData.decision := by
  induction notes with
  | nil => intro st h; exact h
  | cons note rest ih =>
    intro st h
    simp only [processNotes]
    apply ih
    by_cases hid : note.id = pid
    · simpa [processNote, hid] using h
    · cases hcl : classify (extract_content note.content) with
      | review => simpa [processNote, hid, hcl] using h
      | metaReview => simp [processNote, hid, hcl, List.getLast?_concat]
      | comment => simpa [processNote, hid, hcl] using h
      | unclassified => simpa [processNote, hid, hcl] using h

/-- C5: the emitted `decision` equals the decision of the last note the
classifier assigned to MetaReview (source order), and is `None` when no
note classifies as MetaReview; the meta-review sequence is exactly the
MetaReview-classified non-self notes in source order. -/
theorem decision_last_meta_review
    (fetchForum : String → Except String (List Note)) (paper : Note) :
    (processPaper fetchForum paper).decision =
      ((processPaper fetchForum paper).meta_reviews.getLast?).map MetaReviewData.decision ∧
    ∀ notes, fetchForum (forumId paper) = Except.ok notes →
      (processPaper fetchForum paper).meta_reviews =
        (notes.filter (isMetaNote paper.id)).map mkMeta := by
  cases hf : fetchForum (forumId paper) with
  | error e =>
    constructor
    · simp [processPaper, hf]
    · intro notes h2; simp at h2
  | ok notes =>
    constructor
    · have h1 := processNotes_decision_last paper.id notes initForumState rfl
      simpa [processPaper, hf] using h1
    · intro notes2 h2
      injection h2 with h3
      subst h3
      have h4 := processNotes_meta_append paper.id notes initForumState
      simpa [processPaper, hf, initForumState] using h4

/-- Witness for C5: in forum A the meta-review sequence is exactly the
MetaReview-classified notes of that forum mapped to records. -/
theorem decision_last_meta_review_witness :
    (processPaper wFetchForumAB wSubA).meta_reviews =
      ([wSubA, wMetaA].filter (isMetaNote "A")).map mkMeta :=
  (decision_last_meta_review wFetchForumAB wSubA).2 [wSubA, wMetaA] rfl

/-- C3: candidates are tried in listed order; a raising candidate is
skipped exactly like an empty one; the first non-empty fetch is returned
unchanged with its pattern recorded; and exhausting every candidate makes
the crawl return the empty sequence instead of raising. -/
theorem pattern_resolution_order (fetchInv : String → Except String (List Note)) :
    (∀ p rest e, fetchInv p = Except.error e →
      resolve_patterns fetchInv (p :: rest) = resolve_patterns fetchInv rest) ∧
    (∀ p rest, fetchInv p = Except.ok [] →
      resolve_patterns fetchInv (p :: rest) = resolve_patterns fetchInv rest) ∧
    (∀ p rest subs, fetchInv p = Except.ok subs → subs ≠ [] →
      resolve_patterns fetchInv (p :: rest) = (subs, some p)) ∧
    (∀ ps, (∀ q ∈ ps, failsOrEmpty (fetchInv q) = true) →
      resolve_patterns fetchInv ps = ([], Option.none)) ∧
    (∀ fetchForum year accepted_only,
      (∀ q ∈ iclrPatterns year, failsOrEmpty (fetchInv q) = true) →
      crawl_iclr_papers_and_reviews fetchInv fetchForum year accepted_only = []) := by
  have exhaust : ∀ ps : List String,
      (∀ q ∈ ps, failsOrEmpty (fetchInv q) = true) →
      resolve_patterns fetchInv ps = ([], Option.none) := by
    intro ps
    induction ps with
    | nil => intro _; rfl
    | cons p rest ih =>
      intro h
      have hp := h p (by simp)
      have hr := ih (fun q hq => h q (by simp [hq]))
      cases hf : fetchInv p with
      | error e => simp [resolve_patterns, hf, hr]
      | ok l =>
        rw [hf] at hp
        have hl : l = [] := by simpa [failsOrEmpty, List.isEmpty_iff] using hp
        subst hl
        simp [resolve_patterns, hf, hr]
  refine ⟨?_, ?_, ?_, exhaust, ?_⟩
  · intro p rest e h; simp [resolve_patterns, h]
  · intro p rest h; simp [resolve_patterns, h]
  · intro p rest subs h hne
    have hpos : 0 < subs.length := List.length_pos.mpr hne
    simp [resolve_patterns, h, hpos]
  · intro fetchForum year accepted_only h
    simp [crawl_iclr_papers_and_reviews, exhaust _ h]

/-- Witness for C3: a first candidate that raises is skipped and the
second candidate's three submissions are returned with its pattern; an
oracle that always raises makes the whole crawl return `[]`. -/
theorem pattern_resolution_order_witness :
    resolve_patterns wFetchInvSkip ["a", "b"] = ([wSubA, wSubB, wMetaA], some "b") ∧
    crawl_iclr_papers_and_reviews wFetchErr wFetchForumAB 2024 false = [] := by
  constructor
  · have h1 := (pattern_resolution_order wFetchInvSkip).1 "a" ["b"] "e" rfl
    have h3 := (pattern_resolution_order wFetchInvSkip).2.2.1 "b" []
      [wSubA, wSubB, wMetaA] rfl (by simp)
    rw [h1, h3]
  · exact (pattern_resolution_order wFetchErr).2.2.2.2 wFetchForumAB 2024 false
      (fun q hq => rfl)

/-- C8: with the accepted-only flag, the output is exactly the records
whose decision classifies as accepted, in submission order; in the
two-submission scenario (A accepted, B rejected) the output is exactly
A's record. -/
theorem accepted_only_filter
    (fetchForum : String → Except String (List Note)) (subs : List Note) :
    crawl_loop fetchForum true subs =
      (subs.map (processPaper fetchForum)).filter
        (fun paper_data => is_accepted_paper paper_data.decision) ∧
    (crawl_iclr_papers_and_reviews wFetchInvAB wFetchForumAB 2024 true).map
      PaperData.paper_id = ["A"] := by
  constructor
  · induction subs with
    | nil => rfl
    | cons paper rest ih =>
      by_cases h : is_accepted_paper (processPaper fetchForum paper).decision <;>
        simp [crawl_loop, h, ih, List.filter_cons]
  · rfl

end CrawlOpenReview
